import Mathlib

/-!
# Verification of the `ppml_datasets` dataset-preparation library

Shallow embedding of `ppml_datasets/abstract_dataset_handler.py` (class
`AbstractDataset`) and proofs about it.

The embedding is split into several views of the same Python class, each
carrying the fields relevant to the methods it models:

* a *pipeline* view, where a `tf.data.Dataset` is represented symbolically as
  the term of pipeline operations applied to it (`DS`), used for
  `prepare_ds` / `prepare_datasets`;
* an *extensional* view, where a dataset partition is the list of its samples
  (or of its per-sample labels), used for the split/merge and statistics
  methods.
-/

/-! ## Pipeline model: `prepare_ds` and `prepare_datasets` -/

/-- A layer of the fused preprocessing `Sequential` built in `prepare_ds`:
`GrayscaleToRgb()`, `Resizing(h, w)`, `Rescaling(scale=1/255)`, or
`ModelPreprocessing(f)` (the caller-supplied preprocessing function,
identified by a tag). -/
inductive PreLayer : Type
  | grayscaleToRgb : PreLayer
  | resizing (h w : Nat) : PreLayer
  | rescaling : PreLayer
  | modelPreprocessing (f : Nat) : PreLayer
deriving DecidableEq, Repr

/-- A layer of the augmentation `Sequential` built in `prepare_ds`. -/
inductive AugLayer : Type
  | randomFlip (mode : String) : AugLayer
  | randomRotation (r : ℚ) : AugLayer
  | randomTranslation (h w : ℚ) : AugLayer
  | randomZoom (z : ℚ) : AugLayer
  | randomBrightness (b : ℚ) : AugLayer
deriving DecidableEq, Repr

/-- Symbolic `tf.data.Dataset`: a base dataset together with the pipeline
operations applied on top of it.  Each constructor records one
`tf.data.Dataset` method call made by `prepare_ds`.  The `shuffle` node's
buffer size is the current cardinality of the underlying dataset (as in the
source, `buffer_size=ds.cardinality().numpy()`), so only the seed is stored. -/
inductive DS : Type
  | source (id : Nat) : DS
  | mapPre (layers : List PreLayer) (d : DS) : DS
  | cacheFile (filename : String) (d : DS) : DS
  | cacheMem (d : DS) : DS
  | shuffle (seed : Nat) (d : DS) : DS
  | batch (n : Nat) (d : DS) : DS
  | mapAug (layers : List AugLayer) (d : DS) : DS
  | prefetch (d : DS) : DS
deriving DecidableEq, Repr

/-- The `cache` argument of `prepare_ds` has Python type `Union[str, bool]`. -/
inductive CacheArg : Type
  | bool (b : Bool) : CacheArg
  | str (s : String) : CacheArg
deriving DecidableEq, Repr

/-- Python truthiness of the `cache` argument (`if cache:`): a `bool` is its
own truth value, a `str` is truthy iff it is nonempty. -/
def CacheArg.truthy : CacheArg → Bool
  | CacheArg.bool b => b
  | CacheArg.str s => s != ""

/-- The fields of the `AbstractDataset` dataclass used by the pipeline
methods `prepare_ds` / `prepare_datasets`.  Partitions are symbolic `DS`
terms; `ds_val`, `ds_test`, `ds_attack_train`, `ds_attack_test` default to
`None` in the dataclass and are therefore `Option DS`. -/
structure AbstractDataset : Type where
  model_img_shape : Nat × Nat × Nat
  batch_size : Option Nat
  convert_to_rgb : Bool
  augment_train : Bool
  shuffle : Bool
  preprocessing_function : Option Nat
  random_rotation : Option ℚ := some (1/10)
  random_zoom : Option ℚ := some (3/20)
  random_flip : Option String := some "horizontal"
  random_brightness : Option ℚ := some (1/10)
  random_translation_width : Option ℚ := some (1/10)
  random_translation_height : Option ℚ := some (1/10)
  random_seed : Nat := 42
  ds_train : DS
  ds_val : Option DS := none
  ds_test : Option DS := none
  ds_attack_train : Option DS := none
  ds_attack_test : Option DS := none
deriving DecidableEq, Repr

/-- The augmentation `Sequential` built inside `prepare_ds` when
`augment=True`: flip, rotation, translation, zoom, brightness, each added
under the Python truthiness of the corresponding `self.random_*` field
(`None`, `0` and `""` are falsy; translation needs BOTH width and height
truthy). -/
def augmentation_layers (self : AbstractDataset) : List AugLayer :=
  (match self.random_flip with
   | some m => if m != "" then [AugLayer.randomFlip m] else []
   | none => [])
  ++ (match self.random_rotation with
      | some r => if r != 0 then [AugLayer.randomRotation r] else []
      | none => [])
  ++ (match self.random_translation_width, self.random_translation_height with
      | some w, some h => if w != 0 && h != 0 then [AugLayer.randomTranslation h w] else []
      | _, _ => [])
  ++ (match self.random_zoom with
      | some z => if z != 0 then [AugLayer.randomZoom z] else []
      | none => [])
  ++ (match self.random_brightness with
      | some b => if b != 0 then [AugLayer.randomBrightness b] else []
      | none => [])

/-- `AbstractDataset.prepare_ds` (lines 256-332 of
`abstract_dataset_handler.py`): builds the fused preprocessing map
(grayscale→RGB if `convert_to_rgb`, `Resizing(img_shape[0], img_shape[1])`
and `Rescaling(1/255)` if `resize_rescale`, the model preprocessing function
if supplied), applies it in a single `ds.map` when at least one layer was
requested, then caching (in-memory or to the given filename), then shuffling
(seeded), then batching, then augmentation, and finally `prefetch`,
unconditionally. -/
def prepare_ds (self : AbstractDataset) (ds : DS)
    (resize_rescale : Bool) (img_shape : Nat × Nat × Nat) (batch_size : Option Nat)
    (convert_to_rgb : Bool) (preprocessing_func : Option Nat)
    (shuffle : Bool) (augment : Bool) (cache : CacheArg) : DS :=
  let preprocessing_layers : List PreLayer :=
    (if convert_to_rgb then [PreLayer.grayscaleToRgb] else [])
    ++ (if resize_rescale then
          [PreLayer.resizing img_shape.1 img_shape.2.1, PreLayer.rescaling]
        else [])
    ++ (match preprocessing_func with
        | some f => [PreLayer.modelPreprocessing f]
        | none => [])
  let ds := if convert_to_rgb || resize_rescale || preprocessing_func.isSome then
      DS.mapPre preprocessing_layers ds
    else ds
  let ds := if cache.truthy then
      (match cache with
       | CacheArg.str filename => DS.cacheFile filename ds
       | CacheArg.bool _ => DS.cacheMem ds)
    else ds
  let ds := if shuffle then DS.shuffle self.random_seed ds else ds
  let ds := match batch_size with
    | some n => DS.batch n ds
    | none => ds
  let ds := if augment then DS.mapAug (augmentation_layers self) ds else ds
  DS.prefetch ds

/-- `AbstractDataset.prepare_datasets` (lines 214-254): first derives the
attack partitions from the (still unmodified) train/test partitions with
`batch_size=1, shuffle=False, augment=False, cache=True`, then replaces
train, val and test by their fully configured preparations. -/
def prepare_datasets (self : AbstractDataset) : AbstractDataset :=
  let self1 := { self with
    ds_attack_train := some (prepare_ds self self.ds_train true self.model_img_shape
      (some 1) self.convert_to_rgb self.preprocessing_function false false
      (CacheArg.bool true)) }
  let self2 := match self1.ds_test with
    | some t => { self1 with
        ds_attack_test := some (prepare_ds self1 t true self1.model_img_shape
          (some 1) self1.convert_to_rgb self1.preprocessing_function false false
          (CacheArg.bool true)) }
    | none => self1
  let self3 := { self2 with
    ds_train := prepare_ds self2 self2.ds_train true self2.model_img_shape
      self2.batch_size self2.convert_to_rgb self2.preprocessing_function
      self2.shuffle self2.augment_train (CacheArg.bool true) }
  let self4 := match self3.ds_val with
    | some v => { self3 with
        ds_val := some (prepare_ds self3 v true self3.model_img_shape
          self3.batch_size self3.convert_to_rgb self3.preprocessing_function
          false false (CacheArg.bool true)) }
    | none => self3
  let self5 := match self4.ds_test with
    | some t => { self4 with
        ds_test := some (prepare_ds self4 t true self4.model_img_shape
          self4.batch_size self4.convert_to_rgb self4.preprocessing_function
          false false (CacheArg.bool true)) }
    | none => self4
  self5

/-- The kind of pipeline operation a `DS` node represents. -/
inductive OpTag : Type
  | mapPre : OpTag
  | cache : OpTag
  | shuffle : OpTag
  | batch : OpTag
  | augment : OpTag
  | prefetch : OpTag
deriving DecidableEq, Repr

/-- The sequence of pipeline operations applied in a `DS` term, innermost
(applied first) to outermost (applied last). -/
def spineOps : DS → List OpTag
  | DS.source _ => []
  | DS.mapPre _ d => spineOps d ++ [OpTag.mapPre]
  | DS.cacheFile _ d => spineOps d ++ [OpTag.cache]
  | DS.cacheMem d => spineOps d ++ [OpTag.cache]
  | DS.shuffle _ d => spineOps d ++ [OpTag.shuffle]
  | DS.batch _ d => spineOps d ++ [OpTag.batch]
  | DS.mapAug _ d => spineOps d ++ [OpTag.augment]
  | DS.prefetch d => spineOps d ++ [OpTag.prefetch]

/-- All preprocessing layers applied by `mapPre` nodes of a `DS` term, in
application order. -/
def preLayersApplied : DS → List PreLayer
  | DS.source _ => []
  | DS.mapPre layers d => preLayersApplied d ++ layers
  | DS.cacheFile _ d => preLayersApplied d
  | DS.cacheMem d => preLayersApplied d
  | DS.shuffle _ d => preLayersApplied d
  | DS.batch _ d => preLayersApplied d
  | DS.mapAug _ d => preLayersApplied d
  | DS.prefetch d => preLayersApplied d

theorem prepare_ds_congr_self {s₁ s₂ : AbstractDataset} {ds : DS}
    {resize_rescale : Bool} {img_shape : Nat × Nat × Nat} {batch_size : Option Nat}
    {convert_to_rgb : Bool} {preprocessing_func : Option Nat}
    {shuffle augment : Bool} {cache : CacheArg}
    (hseed : s₁.random_seed = s₂.random_seed)
    (haug : augmentation_layers s₁ = augmentation_layers s₂) :
    prepare_ds s₁ ds resize_rescale img_shape batch_size convert_to_rgb
        preprocessing_func shuffle augment cache
      = prepare_ds s₂ ds resize_rescale img_shape batch_size convert_to_rgb
        preprocessing_func shuffle augment cache := by
  simp only [prepare_ds, hseed, haug]

theorem spineOps_prepare_ds (self : AbstractDataset) (ds : DS)
    (resize_rescale : Bool) (img_shape : Nat × Nat × Nat) (batch_size : Option Nat)
    (convert_to_rgb : Bool) (preprocessing_func : Option Nat)
    (shuffle : Bool) (augment : Bool) (cache : CacheArg) :
    spineOps (prepare_ds self ds resize_rescale img_shape batch_size convert_to_rgb
        preprocessing_func shuffle augment cache)
      = spineOps ds
        ++ (if convert_to_rgb || resize_rescale || preprocessing_func.isSome then
              [OpTag.mapPre] else [])
        ++ (if cache.truthy then [OpTag.cache] else [])
        ++ (if shuffle then [OpTag.shuffle] else [])
        ++ (if batch_size.isSome then [OpTag.batch] else [])
        ++ (if augment then [OpTag.augment] else [])
        ++ [OpTag.prefetch] := by
  rcases cache with b | s
  · cases b <;> cases convert_to_rgb <;> cases resize_rescale <;>
      cases preprocessing_func <;> cases shuffle <;> cases augment <;>
      cases batch_size <;> simp [prepare_ds, spineOps, CacheArg.truthy]
  · by_cases hs : s = "" <;> cases convert_to_rgb <;> cases resize_rescale <;>
      cases preprocessing_func <;> cases shuffle <;> cases augment <;>
      cases batch_size <;> simp [prepare_ds, spineOps, CacheArg.truthy, hs]

theorem preLayersApplied_prepare_ds (self : AbstractDataset) (ds : DS)
    (resize_rescale : Bool) (img_shape : Nat × Nat × Nat) (batch_size : Option Nat)
    (convert_to_rgb : Bool) (preprocessing_func : Option Nat)
    (shuffle : Bool) (augment : Bool) (cache : CacheArg) :
    preLayersApplied (prepare_ds self ds resize_rescale img_shape batch_size convert_to_rgb
        preprocessing_func shuffle augment cache)
      = preLayersApplied ds
        ++ (if convert_to_rgb then [PreLayer.grayscaleToRgb] else [])
        ++ (if resize_rescale then
              [PreLayer.resizing img_shape.1 img_shape.2.1, PreLayer.rescaling]
            else [])
        ++ (match preprocessing_func with
            | some f => [PreLayer.modelPreprocessing f]
            | none => []) := by
  rcases cache with b | s
  · cases b <;> cases convert_to_rgb <;> cases resize_rescale <;>
      cases preprocessing_func <;> cases shuffle <;> cases augment <;>
      cases batch_size <;> simp [prepare_ds, preLayersApplied, CacheArg.truthy]
  · by_cases hs : s = "" <;> cases convert_to_rgb <;> cases resize_rescale <;>
      cases preprocessing_func <;> cases shuffle <;> cases augment <;>
      cases batch_size <;> simp [prepare_ds, preLayersApplied, CacheArg.truthy, hs]

/-- **C2.** Every `prepare_ds` call applies the transform stages in the
strict order: the fused preprocessing map (grayscale→RGB, resize to the
target height and width, rescale by 1/255, model preprocessing — in that
order inside one map pass, emitted only when at least one of the four is
requested), then caching, then shuffling, then batching, then augmentation,
and prefetch last, unconditionally, on every path. -/
theorem C2_prepare_ds_stage_order (self : AbstractDataset) (ds : DS)
    (resize_rescale : Bool) (img_shape : Nat × Nat × Nat) (batch_size : Option Nat)
    (convert_to_rgb : Bool) (preprocessing_func : Option Nat)
    (shuffle : Bool) (augment : Bool) (cache : CacheArg) :
    spineOps (prepare_ds self ds resize_rescale img_shape batch_size convert_to_rgb
        preprocessing_func shuffle augment cache)
      = spineOps ds
        ++ (if convert_to_rgb || resize_rescale || preprocessing_func.isSome then
              [OpTag.mapPre] else [])
        ++ (if cache.truthy then [OpTag.cache] else [])
        ++ (if shuffle then [OpTag.shuffle] else [])
        ++ (if batch_size.isSome then [OpTag.batch] else [])
        ++ (if augment then [OpTag.augment] else [])
        ++ [OpTag.prefetch]
    ∧ preLayersApplied (prepare_ds self ds resize_rescale img_shape batch_size convert_to_rgb
        preprocessing_func shuffle augment cache)
      = preLayersApplied ds
        ++ (if convert_to_rgb then [PreLayer.grayscaleToRgb] else [])
        ++ (if resize_rescale then
              [PreLayer.resizing img_shape.1 img_shape.2.1, PreLayer.rescaling]
            else [])
        ++ (match preprocessing_func with
            | some f => [PreLayer.modelPreprocessing f]
            | none => []) :=
  ⟨spineOps_prepare_ds self ds resize_rescale img_shape batch_size convert_to_rgb
      preprocessing_func shuffle augment cache,
   preLayersApplied_prepare_ds self ds resize_rescale img_shape batch_size convert_to_rgb
      preprocessing_func shuffle augment cache⟩

/-- **C1.** After `prepare_datasets`, `ds_attack_train` is `prepare_ds`
applied to the *original* train partition with batch size 1, no shuffle, no
augmentation and caching on; `ds_attack_test` likewise from the original
test partition when present (and untouched otherwise).  The attack
pipelines add exactly a fused map, a cache, a batch and a prefetch on top of
the original partition — in particular no shuffle and no augmentation node,
for every configuration (including `augment_train = true`). -/
theorem C1_attack_partitions_pre_transformation (self : AbstractDataset) :
    (prepare_datasets self).ds_attack_train
      = some (prepare_ds self self.ds_train true self.model_img_shape (some 1)
          self.convert_to_rgb self.preprocessing_function false false (CacheArg.bool true))
    ∧ (prepare_datasets self).ds_attack_test
      = (match self.ds_test with
         | some t => some (prepare_ds self t true self.model_img_shape (some 1)
             self.convert_to_rgb self.preprocessing_function false false (CacheArg.bool true))
         | none => self.ds_attack_test)
    ∧ spineOps (prepare_ds self self.ds_train true self.model_img_shape (some 1)
          self.convert_to_rgb self.preprocessing_function false false (CacheArg.bool true))
      = spineOps self.ds_train ++ [OpTag.mapPre, OpTag.cache, OpTag.batch, OpTag.prefetch]
    ∧ (match self.ds_test with
       | some t =>
          spineOps (prepare_ds self t true self.model_img_shape (some 1)
              self.convert_to_rgb self.preprocessing_function false false (CacheArg.bool true))
            = spineOps t ++ [OpTag.mapPre, OpTag.cache, OpTag.batch, OpTag.prefetch]
       | none => True) := by
  have hspine : ∀ d : DS,
      spineOps (prepare_ds self d true self.model_img_shape (some 1)
          self.convert_to_rgb self.preprocessing_function false false (CacheArg.bool true))
        = spineOps d ++ [OpTag.mapPre, OpTag.cache, OpTag.batch, OpTag.prefetch] := by
    intro d
    rw [spineOps_prepare_ds]
    simp [CacheArg.truthy]
  refine ⟨?_, ?_, hspine self.ds_train, ?_⟩
  · rcases htest : self.ds_test with _ | t <;> rcases hval : self.ds_val with _ | v <;>
      simp [prepare_datasets, htest, hval]
  · rcases htest : self.ds_test with _ | t <;> rcases hval : self.ds_val with _ | v <;>
      simp [prepare_datasets, htest, hval] <;>
      exact prepare_ds_congr_self rfl rfl
  · rcases htest : self.ds_test with _ | t
    · exact trivial
    · exact hspine t

/-! ## Extensional model: split/merge engine

Here a partition is the list of its samples.  `train_val_test_split` is
declared `field(init=False)` with no default in the dataclass, so it is
absent until something assigns it; it is modelled as an `Option` that is
`none` while unset.  The attribute `percentage_loaded_data` read on `self`
at lines 160 and 206 is not a dataclass field and is never assigned anywhere
in the class, so reading it raises `AttributeError`; merge/resplit therefore
return `Except String _`, erroring exactly where Python raises. -/

structure SplitMergeState (α : Type) : Type where
  ds_train : List α
  ds_val : Option (List α) := none
  ds_test : Option (List α) := none
  train_val_test_split : Option (ℚ × ℚ × ℚ) := none
  random_seed : Nat := 42
deriving DecidableEq, Repr

/-- `AbstractDataset.merge_all_datasets` (lines 193-209): concatenate train,
then test (if present), then validation (if present); if the percentage
argument is not 100, evaluate `math.ceil(len(ds) * (self.percentage_loaded_data
/ 100.0))` — which raises `AttributeError`, since `percentage_loaded_data`
is not an attribute of the object (the code was meant to use its own
parameter of that name); finally store the result as the train partition. -/
def merge_all_datasets {α : Type} (self : SplitMergeState α)
    (percentage_loaded_data : Nat) : Except String (SplitMergeState α) :=
  let ds := self.ds_train
  let ds := match self.ds_test with
    | some t => ds ++ t
    | none => ds
  let ds := match self.ds_val with
    | some v => ds ++ v
    | none => ds
  if percentage_loaded_data ≠ 100 then
    Except.error "AttributeError: 'AbstractDataset' object has no attribute 'percentage_loaded_data'"
  else
    Except.ok { self with ds_train := ds }

/-- `AbstractDataset.resplit_datasets` (lines 145-178).  The call to the
external `tf.keras.utils.split_dataset` is abstracted by the parameter
`split_fn ds left_size shuffle seed`, returning the (left, right) output
partitions.  Note that every split fraction is read from
`self.train_val_test_split`; the method's own `train_val_test_split`
parameter is never used. -/
def resplit_datasets {α : Type}
    (split_fn : List α → ℚ → Bool → Option Nat → List α × List α)
    (self : SplitMergeState α) (train_val_test_split : ℚ × ℚ × ℚ)
    (percentage_loaded_data : Nat) : Except String (SplitMergeState α) :=
  let ds := self.ds_train
  let ds := match self.ds_test with
    | some t => ds ++ t
    | none => ds
  let ds := match self.ds_val with
    | some v => ds ++ v
    | none => ds
  if percentage_loaded_data ≠ 100 then
    Except.error "AttributeError: 'AbstractDataset' object has no attribute 'percentage_loaded_data'"
  else
    match self.train_val_test_split with
    | none => Except.error "AttributeError: 'AbstractDataset' object has no attribute 'train_val_test_split'"
    | some (train_split, val_split, test_split) =>
      let p := split_fn ds train_split true (some self.random_seed)
      if val_split = 0 then
        Except.ok { self with ds_train := p.1, ds_test := some p.2 }
      else if test_split = 0 then
        Except.ok { self with ds_train := p.1, ds_val := some p.2 }
      else
        let q := split_fn p.2 (val_split / (val_split + test_split)) false none
        Except.ok { self with ds_train := p.1, ds_val := some q.1, ds_test := some q.2 }

/-- **C5** (code bug at lines 205-207): with percentage 100 the new train
partition is exactly train ++ test ++ val (in that fixed order) and its
cardinality is the sum of the three original cardinalities; but with any
percentage other than 100 the method raises `AttributeError` instead of
truncating, because it reads the never-assigned `self.percentage_loaded_data`
rather than its own parameter. -/
theorem C5_merge_all_datasets_behaviour (self : SplitMergeState ℕ) :
    merge_all_datasets self 50
      = Except.error "AttributeError: 'AbstractDataset' object has no attribute 'percentage_loaded_data'"
    ∧ merge_all_datasets self 100
      = Except.ok { self with
          ds_train := self.ds_train ++ self.ds_test.getD [] ++ self.ds_val.getD [] }
    ∧ (self.ds_train ++ self.ds_test.getD [] ++ self.ds_val.getD []).length
      = self.ds_train.length + (self.ds_val.getD []).length + (self.ds_test.getD []).length := by
  refine ⟨?_, ?_, ?_⟩
  · rcases self.ds_test with _ | t <;> rcases self.ds_val with _ | v <;> rfl
  · rcases htest : self.ds_test with _ | t <;> rcases hval : self.ds_val with _ | v <;>
      simp [merge_all_datasets, htest, hval]
  · simp [List.length_append]
    omega

/-- **C6** (code bug at lines 163-165): the split fractions actually used by
`resplit_datasets` are read from the stored `self.train_val_test_split`
field; the `train_val_test_split` argument of the call is ignored entirely,
so the result is the same for any two argument values — contradicting the
claim that the pool is split by the fractions supplied as the argument. -/
theorem C6_resplit_datasets_ignores_argument {α : Type}
    (split_fn : List α → ℚ → Bool → Option Nat → List α × List α)
    (self : SplitMergeState α) (split_a split_b : ℚ × ℚ × ℚ)
    (percentage_loaded_data : Nat) :
    resplit_datasets split_fn self split_a percentage_loaded_data
      = resplit_datasets split_fn self split_b percentage_loaded_data := rfl

/-! ## Extensional model: statistics engine

The train partition is represented by its per-sample label sequence (the
exact data `get_class_distribution` extracts via `ds.map(lambda _, y: y)`);
the cardinality of the partition is the length of that sequence. -/

/-- Insert an integer into a strictly sorted duplicate-free list, keeping it
strictly sorted and duplicate-free. -/
def insertSortedDistinct (x : ℤ) : List ℤ → List ℤ
  | [] => [x]
  | y :: ys =>
    if x < y then x :: y :: ys
    else if x = y then y :: ys
    else y :: insertSortedDistinct x ys

/-- `np.unique(ys)`: the sorted distinct values occurring in `ys`. -/
def npUnique (ys : List ℤ) : List ℤ := ys.foldr insertSortedDistinct []

theorem mem_insertSortedDistinct {a x : ℤ} {l : List ℤ} :
    a ∈ insertSortedDistinct x l ↔ a = x ∨ a ∈ l := by
  induction l with
  | nil => simp [insertSortedDistinct]
  | cons y ys ih =>
    by_cases h1 : x < y
    · simp [insertSortedDistinct, h1]
    · by_cases h2 : x = y
      · subst h2
        simp [insertSortedDistinct, h1]
      · simp only [insertSortedDistinct, if_neg h1, if_neg h2, List.mem_cons, ih]
        tauto

theorem sorted_insertSortedDistinct {x : ℤ} {l : List ℤ}
    (hl : l.Sorted (· < ·)) : (insertSortedDistinct x l).Sorted (· < ·) := by
  induction l with
  | nil => simp [insertSortedDistinct]
  | cons y ys ih =>
    rw [List.sorted_cons] at hl
    by_cases h1 : x < y
    · rw [insertSortedDistinct, if_pos h1, List.sorted_cons]
      refine ⟨?_, List.sorted_cons.2 hl⟩
      intro b hb
      rcases List.mem_cons.1 hb with rfl | hb
      · exact h1
      · exact h1.trans (hl.1 b hb)
    · by_cases h2 : x = y
      · rw [insertSortedDistinct, if_neg h1, if_pos h2]
        exact List.sorted_cons.2 hl
      · rw [insertSortedDistinct, if_neg h1, if_neg h2, List.sorted_cons]
        refine ⟨?_, ih hl.2⟩
        intro b hb
        rcases mem_insertSortedDistinct.1 hb with rfl | hb
        · omega
        · exact hl.1 b hb

theorem sorted_npUnique (ys : List ℤ) : (npUnique ys).Sorted (· < ·) := by
  induction ys with
  | nil => simp [npUnique]
  | cons y t ih => exact sorted_insertSortedDistinct ih

theorem mem_npUnique {a : ℤ} {ys : List ℤ} : a ∈ npUnique ys ↔ a ∈ ys := by
  induction ys with
  | nil => simp [npUnique]
  | cons y t ih =>
    show a ∈ insertSortedDistinct y (npUnique t) ↔ _
    rw [mem_insertSortedDistinct, List.mem_cons, ih]

theorem nodup_npUnique (ys : List ℤ) : (npUnique ys).Nodup :=
  (sorted_npUnique ys).nodup

theorem toFinset_npUnique (ys : List ℤ) : (npUnique ys).toFinset = ys.toFinset := by
  ext a
  simp [mem_npUnique]

theorem length_npUnique (ys : List ℤ) : (npUnique ys).length = ys.toFinset.card := by
  rw [← toFinset_npUnique, List.toFinset_card_of_nodup (nodup_npUnique ys)]

/-- The list sum over `npUnique ys` equals the `Finset` sum over
`ys.toFinset`. -/
theorem sum_map_npUnique {M : Type} [AddCommMonoid M] (ys : List ℤ) (f : ℤ → M) :
    ((npUnique ys).map f).sum = ∑ a ∈ ys.toFinset, f a := by
  rw [← List.sum_toFinset f (nodup_npUnique ys), toFinset_npUnique]

theorem sum_counts_npUnique (ys : List ℤ) :
    ((npUnique ys).map fun l => ys.count l).sum = ys.length := by
  rw [sum_map_npUnique]
  exact List.sum_toFinset_count_eq_length ys

/-- The fields of `AbstractDataset` used by the statistics methods:
`ds_train` (as its label sequence), the three distribution cache fields (all
defaulting to `None`) and the optional cosmetic `class_names`. -/
structure StatState : Type where
  ds_train_labels : List ℤ
  class_labels : Option (List ℤ) := none
  class_counts : Option (List ℕ) := none
  class_distribution : Option (List ℤ) := none
  class_names : Option (List String) := none
deriving DecidableEq, Repr

/-- `AbstractDataset.get_class_distribution` (lines 371-406): if all three
cache fields are set and `force_recalcuation` is not `True`, return the
cached triple unchanged; otherwise extract the label sequence of the given
dataset (or of the train partition when no dataset is passed), compute
`np.unique(..., return_counts=True)`, store the results in the cache fields
and return them. -/
def get_class_distribution (self : StatState) (ds : Option (List ℤ))
    (force_recalcuation : Bool) : StatState × (List ℤ × List ℕ × List ℤ) :=
  if self.class_counts.isSome ∧ self.class_labels.isSome ∧
      self.class_distribution.isSome ∧ force_recalcuation ≠ true then
    (self, (self.class_labels.getD [], self.class_counts.getD [], self.class_distribution.getD []))
  else
    let y_train := match ds with
      | some d => d
      | none => self.ds_train_labels
    let labels := npUnique y_train
    let counts := labels.map fun l => y_train.count l
    let self' := { self with
      class_labels := some labels
      class_counts := some counts
      class_distribution := some y_train }
    (self', (labels, counts, y_train))

/-- **C4.** On a computing (non-cached) call, the returned triple
`(labels, counts, full_label_sequence)` satisfies: the counts sum to the
partition's cardinality, labels and counts have equal length, the full
label sequence is the partition's label sequence (so its length is the
cardinality), and the labels are strictly sorted and are exactly the
distinct values occurring in the sequence. -/
theorem C4_class_distribution_invariants (self : StatState) (ds : Option (List ℤ))
    (force_recalcuation : Bool)
    (hbranch : self.class_counts = none ∨ self.class_labels = none ∨
      self.class_distribution = none ∨ force_recalcuation = true) :
    ((get_class_distribution self ds force_recalcuation).2.2.1).sum
        = (ds.getD self.ds_train_labels).length
    ∧ ((get_class_distribution self ds force_recalcuation).2.1).length
        = ((get_class_distribution self ds force_recalcuation).2.2.1).length
    ∧ (get_class_distribution self ds force_recalcuation).2.2.2
        = ds.getD self.ds_train_labels
    ∧ ((get_class_distribution self ds force_recalcuation).2.2.2).length
        = (ds.getD self.ds_train_labels).length
    ∧ ((get_class_distribution self ds force_recalcuation).2.1).Sorted (· < ·)
    ∧ ∀ a : ℤ, a ∈ (get_class_distribution self ds force_recalcuation).2.1
        ↔ a ∈ ds.getD self.ds_train_labels := by
  have hcond : ¬ (self.class_counts.isSome ∧ self.class_labels.isSome ∧
      self.class_distribution.isSome ∧ force_recalcuation ≠ true) := by
    rcases hbranch with h | h | h | h <;> simp [h]
  rcases ds with _ | d <;>
    refine ⟨?_, ?_, ?_, ?_, ?_, ?_⟩ <;>
    simp only [get_class_distribution, if_neg hcond, Option.getD] <;>
    first
      | exact sum_counts_npUnique _
      | simp [List.length_map]
      | exact sorted_npUnique _
      | (intro a; exact mem_npUnique)

/-- **C9.** When the three cache fields are populated and
`force_recalcuation` is false, `get_class_distribution` returns the cached
triple with the state unchanged, for every value of the `ds` argument: the
distribution of an explicitly passed dataset is never computed while a
cache exists. -/
theorem C9_cached_distribution_independent_of_ds (self : StatState)
    (cl : List ℤ) (cc : List ℕ) (cd : List ℤ)
    (hl : self.class_labels = some cl) (hc : self.class_counts = some cc)
    (hd : self.class_distribution = some cd) :
    ∀ ds : Option (List ℤ), get_class_distribution self ds false = (self, (cl, cc, cd)) := by
  intro ds
  simp [get_class_distribution, hl, hc, hd]

/-- A concrete statistics state whose cache fields are populated with values
unrelated to its train labels (used to exhibit the caching behaviour). -/
def exCachedState : StatState :=
  { ds_train_labels := [0, 0, 1]
    class_labels := some [5]
    class_counts := some [3]
    class_distribution := some [5, 5, 5] }

/-- Witness for C9 at a concrete cached state (whose cache is unrelated to
its train labels) and two different `ds` arguments. -/
theorem C9_cached_distribution_independent_of_ds_witness :
    get_class_distribution exCachedState (some [7, 8]) false
      = (exCachedState, ([5], [3], [5, 5, 5]))
    ∧ get_class_distribution exCachedState none false
      = (exCachedState, ([5], [3], [5, 5, 5])) :=
  ⟨C9_cached_distribution_independent_of_ds _ _ _ _ rfl rfl rfl (some [7, 8]),
   C9_cached_distribution_independent_of_ds _ _ _ _ rfl rfl rfl none⟩

/-- A concrete statistics state with empty caches. -/
def exFreshState : StatState := { ds_train_labels := [4, 1, 0, 2, 4, 1] }

/-- Witness for C4 at a concrete state whose caches are empty. -/
theorem C4_class_distribution_invariants_witness :
    ((exFreshState.class_counts = none ∨ exFreshState.class_labels = none ∨
      exFreshState.class_distribution = none ∨ false = true)
    ∧ ((get_class_distribution exFreshState none false).2.2.1).sum
        = ((none : Option (List ℤ)).getD exFreshState.ds_train_labels).length) :=
  ⟨Or.inl rfl,
   (C4_class_distribution_invariants exFreshState none false (Or.inl rfl)).1⟩


/-! ### Shannon entropy bounds (for `calculate_class_imbalance`) -/

/-- Gibbs bound: for a probability vector `w` supported on `T`, the Shannon
entropy `-∑ w·log w` is at most `log |T|` (Jensen on the concave `log`). -/
theorem shannon_sum_le_log_card (T : Finset ℤ) (w : ℤ → ℝ)
    (hpos : ∀ a ∈ T, 0 < w a) (hsum : ∑ a ∈ T, w a = 1) :
    -∑ a ∈ T, w a * Real.log (w a) ≤ Real.log (T.card : ℝ) := by
  have hmem : ∀ a ∈ T, (w a)⁻¹ ∈ Set.Ioi (0 : ℝ) := fun a ha =>
    Set.mem_Ioi.2 (inv_pos.2 (hpos a ha))
  have h := strictConcaveOn_log_Ioi.concaveOn.le_map_sum
    (fun a ha => (hpos a ha).le) hsum hmem
  have hterm : ∀ a ∈ T, w a • Real.log ((w a)⁻¹) = -(w a * Real.log (w a)) := by
    intro a _
    rw [smul_eq_mul, Real.log_inv, mul_neg]
  have hcard : ∑ a ∈ T, w a • (w a)⁻¹ = (T.card : ℝ) := by
    rw [Finset.sum_congr rfl fun a ha => by
      rw [smul_eq_mul, mul_inv_cancel₀ (hpos a ha).ne']]
    simp
  rw [Finset.sum_congr rfl hterm, Finset.sum_neg_distrib, hcard] at h
  exact h

/-- Equality case of the Gibbs bound: the entropy reaches `log |T|` exactly
when `w` is constant on `T`. -/
theorem shannon_sum_eq_log_card_iff (T : Finset ℤ) (w : ℤ → ℝ) (hT : T.Nonempty)
    (hpos : ∀ a ∈ T, 0 < w a) (hsum : ∑ a ∈ T, w a = 1) :
    (-∑ a ∈ T, w a * Real.log (w a) = Real.log (T.card : ℝ))
      ↔ ∀ a ∈ T, ∀ b ∈ T, w a = w b := by
  have hmem : ∀ a ∈ T, (w a)⁻¹ ∈ Set.Ioi (0 : ℝ) := fun a ha =>
    Set.mem_Ioi.2 (inv_pos.2 (hpos a ha))
  have hterm : ∀ a ∈ T, w a • Real.log ((w a)⁻¹) = -(w a * Real.log (w a)) := by
    intro a _
    rw [smul_eq_mul, Real.log_inv, mul_neg]
  have hcard : ∑ a ∈ T, w a • (w a)⁻¹ = (T.card : ℝ) := by
    rw [Finset.sum_congr rfl fun a ha => by
      rw [smul_eq_mul, mul_inv_cancel₀ (hpos a ha).ne']]
    simp
  have hcard0 : (0 : ℝ) < (T.card : ℝ) := by
    exact_mod_cast Finset.card_pos.2 hT
  constructor
  · intro heq
    have h_eq : Real.log (∑ a ∈ T, w a • (w a)⁻¹) ≤ ∑ a ∈ T, w a • Real.log ((w a)⁻¹) := by
      rw [hcard, Finset.sum_congr rfl hterm, Finset.sum_neg_distrib]
      exact le_of_eq heq.symm
    have hall := strictConcaveOn_log_Ioi.eq_of_map_sum_eq hpos hsum hmem h_eq
    intro a ha b hb
    exact inv_injective (hall ha hb)
  · intro hconst
    have hw : ∀ a ∈ T, w a = ((T.card : ℝ))⁻¹ := by
      intro a ha
      have hs : ∑ b ∈ T, w b = (T.card : ℝ) * w a := by
        rw [Finset.sum_congr rfl fun b hb => hconst b hb a ha, Finset.sum_const,
          nsmul_eq_mul]
      rw [hs] at hsum
      exact eq_inv_of_mul_eq_one_right hsum
    rw [Finset.sum_congr rfl fun a ha => by rw [hw a ha], Finset.sum_const, nsmul_eq_mul,
      Real.log_inv]
    have hne : (T.card : ℝ) ≠ 0 := hcard0.ne'
    field_simp

/-- The entropy accumulation loop of `calculate_class_imbalance`:
`H += (c / n) * np.log(c / n)` over the class counts. -/
noncomputable def countsEntropySum (counts : List ℕ) (n : ℕ) : ℝ :=
  (counts.map fun (c : ℕ) => ((c : ℝ) / (n : ℝ)) * Real.log ((c : ℝ) / (n : ℝ))).sum

/-- `AbstractDataset.calculate_class_imbalance` (lines 408-431): take the
class counts from `get_class_distribution`, accumulate
`H += (c / n) * log(c / n)` over the counts with `n` their total, negate,
and divide by `log(k)` with `k` the number of classes. -/
noncomputable def calculate_class_imbalance (self : StatState) : ℝ :=
  let class_counts := (get_class_distribution self none false).2.2.1
  let n : ℕ := class_counts.sum
  let k : ℕ := class_counts.length
  let H : ℝ := countsEntropySum class_counts n
  (-H) / Real.log (k : ℝ)

theorem countsEntropySum_npUnique (ys : List ℤ) :
    countsEntropySum ((npUnique ys).map fun l => ys.count l) ys.length
      = ∑ a ∈ ys.toFinset,
          ((ys.count a : ℝ) / (ys.length : ℝ))
            * Real.log ((ys.count a : ℝ) / (ys.length : ℝ)) := by
  unfold countsEntropySum
  rw [List.map_map]
  exact sum_map_npUnique ys _

/-- **C3.** For a train partition with at least two classes (each class
count positive by construction, since every class occurs in the label
sequence), `calculate_class_imbalance` returns `H / ln k` for `H` the
Shannon entropy of the normalized count distribution and `n` the total
sample count; the value lies in `[0, 1]` and equals `1` exactly when all
class counts are equal. -/
theorem C3_class_imbalance_normalized_entropy (ys : List ℤ)
    (hk : 2 ≤ (npUnique ys).length) :
    calculate_class_imbalance { ds_train_labels := ys }
      = (-(countsEntropySum ((npUnique ys).map fun l => ys.count l) ys.length))
        / Real.log (((npUnique ys).length : ℝ))
    ∧ 0 ≤ calculate_class_imbalance { ds_train_labels := ys }
    ∧ calculate_class_imbalance { ds_train_labels := ys } ≤ 1
    ∧ (calculate_class_imbalance { ds_train_labels := ys } = 1
        ↔ ∃ m : ℕ, ∀ l ∈ npUnique ys, ys.count l = m) := by
  have hB : calculate_class_imbalance { ds_train_labels := ys }
      = (-(countsEntropySum ((npUnique ys).map fun l => ys.count l) ys.length))
        / Real.log (((npUnique ys).length : ℝ)) := by
    simp only [calculate_class_imbalance, get_class_distribution, Option.isSome_none,
      Bool.false_eq_true, false_and, if_false, sum_counts_npUnique, List.length_map]
  set T : Finset ℤ := ys.toFinset with hT
  set w : ℤ → ℝ := fun a => ((ys.count a : ℝ) / (ys.length : ℝ)) with hw
  have hcardT : (npUnique ys).length = T.card := length_npUnique ys
  have hTne : T.Nonempty := Finset.card_pos.1 (by omega)
  have hys_ne : ys ≠ [] := by
    intro h
    subst h
    simp [npUnique] at hk
  have hn : 0 < ys.length := List.length_pos.2 hys_ne
  have hnR : (0 : ℝ) < (ys.length : ℝ) := by exact_mod_cast hn
  have hpos : ∀ a ∈ T, 0 < w a := by
    intro a ha
    have hc : 0 < ys.count a := List.count_pos_iff.2 (List.mem_toFinset.1 ha)
    exact div_pos (by exact_mod_cast hc) hnR
  have hsum : ∑ a ∈ T, w a = 1 := by
    show ∑ a ∈ T, ((ys.count a : ℝ) / (ys.length : ℝ)) = 1
    rw [← Finset.sum_div, ← Nat.cast_sum, List.sum_toFinset_count_eq_length]
    exact div_self hnR.ne'
  have hHsum : countsEntropySum ((npUnique ys).map fun l => ys.count l) ys.length
      = ∑ a ∈ T, w a * Real.log (w a) := countsEntropySum_npUnique ys
  have hlogk : (0 : ℝ) < Real.log ((npUnique ys).length : ℝ) := by
    apply Real.log_pos
    exact_mod_cast lt_of_lt_of_le (by norm_num) hk
  have hupper : -∑ a ∈ T, w a * Real.log (w a) ≤ Real.log (((npUnique ys).length : ℝ)) := by
    rw [hcardT]
    exact shannon_sum_le_log_card T w hpos hsum
  have hlower : 0 ≤ -∑ a ∈ T, w a * Real.log (w a) := by
    rw [neg_nonneg]
    apply Finset.sum_nonpos
    intro a ha
    apply Real.mul_log_nonpos (hpos a ha).le
    show ((ys.count a : ℝ) / (ys.length : ℝ)) ≤ 1
    rw [div_le_one hnR]
    exact_mod_cast List.count_le_length a ys
  refine ⟨hB, ?_, ?_, ?_⟩
  · rw [hB, hHsum]
    exact div_nonneg hlower hlogk.le
  · rw [hB, hHsum, div_le_one hlogk]
    exact hupper
  · rw [hB, hHsum, div_eq_one_iff_eq hlogk.ne', hcardT,
      shannon_sum_eq_log_card_iff T w hTne hpos hsum]
    constructor
    · intro hconst
      obtain ⟨a₀, ha₀⟩ := hTne
      refine ⟨ys.count a₀, fun l hl => ?_⟩
      have hlT : l ∈ T := List.mem_toFinset.2 (mem_npUnique.1 hl)
      have h3 := hconst l hlT a₀ ha₀
      simp only [hw] at h3
      have h4 : (ys.count l : ℝ) = (ys.count a₀ : ℝ) :=
        mul_right_cancel₀ (inv_ne_zero hnR.ne')
          (by rwa [div_eq_mul_inv, div_eq_mul_inv] at h3)
      exact_mod_cast h4
    · rintro ⟨m, hm⟩ a ha b hb
      have ha' : ys.count a = m := hm a (mem_npUnique.2 (List.mem_toFinset.1 ha))
      have hb' : ys.count b = m := hm b (mem_npUnique.2 (List.mem_toFinset.1 hb))
      simp only [hw]
      rw [ha', hb']

/-- Witness for C3 at a concrete two-class label sequence. -/
theorem C3_class_imbalance_normalized_entropy_witness :
    2 ≤ (npUnique [0, 0, 1]).length
    ∧ 0 ≤ calculate_class_imbalance { ds_train_labels := [0, 0, 1] }
    ∧ calculate_class_imbalance { ds_train_labels := [0, 0, 1] } ≤ 1 :=
  ⟨by decide,
   (C3_class_imbalance_normalized_entropy [0, 0, 1] (by decide)).2.1,
   (C3_class_imbalance_normalized_entropy [0, 0, 1] (by decide)).2.2.1⟩

/-! ## `calculate_class_weights` (with Python dict semantics) -/

/-- A Python dict key as used by `calculate_class_weights`: either a display
string or an integer label. -/
inductive PyKey : Type
  | str (s : String) : PyKey
  | int (z : ℤ) : PyKey
deriving DecidableEq, Repr

/-- Python dict assignment `d[k] = v`: an existing key keeps its position
and gets the new value, a new key is appended. -/
def dictInsert {α : Type} (d : List (PyKey × α)) (k : PyKey) (v : α) :
    List (PyKey × α) :=
  if d.any fun p => p.1 == k then
    d.map fun p => if p.1 == k then (k, v) else p
  else d ++ [(k, v)]

/-- Python list indexing `l[z]`: a negative index counts from the end;
an out-of-range index raises `IndexError` (modelled as `none`). -/
def pyIndex {α : Type} (l : List α) (z : ℤ) : Option α :=
  if 0 ≤ z then l.get? z.toNat
  else if 0 ≤ z + (l.length : ℤ) then l.get? (z + (l.length : ℤ)).toNat
  else none

/-- The f-string `f"{name}({y})"` used as display key. -/
def displayKey (name : String) (y : ℤ) : String :=
  name ++ "(" ++ toString y ++ ")"

/-- `sklearn.utils.class_weight.compute_class_weight(class_weight="balanced",
classes=np.unique(y), y=y)` (external collaborator, embedded by its
documented formula): for each class `c` (in sorted order),
`n_samples / (n_classes * count(c))`. -/
def compute_class_weight_balanced (y : List ℤ) : List ℚ :=
  let classes := npUnique y
  classes.map fun c => (y.length : ℚ) / ((classes.length : ℚ) * (y.count c : ℚ))

/-- `AbstractDataset.calculate_class_weights` (lines 334-355): build the
per-class counts dict (display keys `"name(y)"` when `class_names` is set
with length matching the number of labels, else the raw label as key), then
compute balanced weights and build the weights dict.  In the display-key
branch the weights loop reuses the *stale* loop variable `y` left over from
the counts loop (the last label), so every weight is written under that one
key; if the counts loop never ran while weights exist, `y` is unbound and
Python raises `NameError`.  Out-of-range `class_names[y]` raises
`IndexError`. -/
def calculate_class_weights (self : StatState) :
    Except String (List (PyKey × ℕ) × List (PyKey × ℚ)) :=
  let r := get_class_distribution self none false
  let class_labels := r.2.1
  let class_counts := r.2.2.1
  let class_distribution := r.2.2.2
  let matching : Bool := match self.class_names with
    | some names => names.length == class_labels.length
    | none => false
  let counts_dict : Except String (List (PyKey × ℕ)) :=
    (class_labels.zip class_counts).foldl
      (fun acc yc =>
        match acc with
        | Except.error e => Except.error e
        | Except.ok d =>
          if matching then
            match self.class_names with
            | some names =>
              match pyIndex names yc.1 with
              | some nm => Except.ok (dictInsert d (PyKey.str (displayKey nm yc.1)) yc.2)
              | none => Except.error "IndexError: list index out of range"
            | none => Except.error "unreachable: matching implies class_names set"
          else Except.ok (dictInsert d (PyKey.int yc.1) yc.2))
      (Except.ok [])
  let weights := compute_class_weight_balanced class_distribution
  let weights_dict : Except String (List (PyKey × ℚ)) :=
    if matching then
      match weights with
      | [] => Except.ok []
      | _ =>
        match class_labels.getLast? with
        | none => Except.error "NameError: name 'y' is not defined"
        | some y =>
          match self.class_names with
          | some names =>
            match pyIndex names y with
            | some nm =>
              Except.ok (weights.foldl
                (fun d wv => dictInsert d (PyKey.str (displayKey nm y)) wv) [])
            | none => Except.error "IndexError: list index out of range"
          | none => Except.error "unreachable: matching implies class_names set"
    else
      Except.ok (weights.enum.map fun p => (PyKey.int (p.1 : ℤ), p.2))
  match counts_dict with
  | Except.error e => Except.error e
  | Except.ok cd =>
    match weights_dict with
    | Except.error e => Except.error e
    | Except.ok cw => Except.ok (cd, cw)

/-- **C7** (code bug at line 352): evaluated at the two-class label sequence
`[0, 1]` with class names `["a", "b"]` — the counts dict gets the two
display keys `"a(0)"`, `"b(1)"` as claimed, but the weights loop keys every
weight with the stale loop variable `y` (the last label), so the weights
dict collapses to the single entry `"b(1)" ↦ 1` instead of one distinct key
per class. -/
theorem C7_weights_dict_single_stale_key :
    calculate_class_weights
        { ds_train_labels := [0, 1], class_names := some ["a", "b"] }
      = Except.ok ([(PyKey.str "a(0)", 1), (PyKey.str "b(1)", 1)],
                   [(PyKey.str "b(1)", (1 : ℚ))]) := by
  norm_num [calculate_class_weights, get_class_distribution, npUnique,
    insertSortedDistinct, compute_class_weight_balanced, dictInsert, pyIndex,
    displayKey]
  decide

/-! ## Loader model: `load_dataset` -/

/-- The message printed by `__load_from_tfds` when (hypothetically) called
with `is_tfds_ds` false — the only "skipped the catalog" warning in the
source. -/
def tfds_warning : String := "Cannot load dataset from tfds since it is not a tfds dataset!"

/-- The fields of `AbstractDataset` used by the loading methods; partitions
are optional sample lists (`ds_train` is declared `field(init=False)` with
no default and `ds_val`/`ds_test` default to `None`, so all three are unset
before a successful load, modelled as `none`). -/
structure LoadState : Type where
  dataset_name : String
  is_tfds_ds : Bool
  builds_ds_info : Bool := false
  ds_train : Option (List (ℤ × ℤ)) := none
  ds_val : Option (List (ℤ × ℤ)) := none
  ds_test : Option (List (ℤ × ℤ)) := none
deriving DecidableEq, Repr

/-- `AbstractDataset.__load_from_tfds` (lines 106-132): guard printing
`tfds_warning` when not a tfds dataset, otherwise load the val/test/train
partitions returned by the external `tfds.load` (abstracted by `tfds_load`,
returning the optional val, test and train partitions for a dataset name)
and print which ones were loaded. -/
def load_from_tfds
    (tfds_load : String →
      Option (List (ℤ × ℤ)) × Option (List (ℤ × ℤ)) × Option (List (ℤ × ℤ)))
    (self : LoadState) : LoadState × List String :=
  if self.is_tfds_ds = false then (self, [tfds_warning])
  else
    let r := tfds_load self.dataset_name
    let (s1, log1) := match r.1 with
      | some v => ({ self with ds_val := some v }, ["Loaded validation DS"])
      | none => (self, [])
    let (s2, log2) := match r.2.1 with
      | some t => ({ s1 with ds_test := some t }, log1 ++ ["Loaded test DS"])
      | none => (s1, log1)
    match r.2.2 with
    | some t => ({ s2 with ds_train := some t }, log2 ++ ["Loaded train DS"])
    | none => (s2, log2)

/-- `AbstractDataset._load_dataset` (lines 68-76), base-class version (no
subclass override): call `__load_from_tfds` only when `is_tfds_ds` is set,
otherwise do nothing. -/
def load_dataset_base
    (tfds_load : String →
      Option (List (ℤ × ℤ)) × Option (List (ℤ × ℤ)) × Option (List (ℤ × ℤ)))
    (self : LoadState) : LoadState × List String :=
  if self.is_tfds_ds then load_from_tfds tfds_load self else (self, [])

/-- `AbstractDataset.load_dataset` (lines 78-104): print the loading line,
run `_load_dataset`, optionally build the dataset info (abstracted by
`build_ds_info_fn`, which fails when no data was loaded), and optionally
filter every present partition.  Returns the final state together with
everything printed. -/
def load_dataset
    (tfds_load : String →
      Option (List (ℤ × ℤ)) × Option (List (ℤ × ℤ)) × Option (List (ℤ × ℤ)))
    (build_ds_info_fn : LoadState → Except String LoadState)
    (self : LoadState) (fn_filter : Option ((ℤ × ℤ) → Bool)) :
    Except String (LoadState × List String) :=
  let log0 := ["Loading " ++ self.dataset_name]
  let r := load_dataset_base tfds_load self
  let afterInfo : Except String LoadState :=
    if r.1.builds_ds_info then build_ds_info_fn r.1 else Except.ok r.1
  match afterInfo with
  | Except.error e => Except.error e
  | Except.ok s2 =>
    let s3 := match fn_filter with
      | some f =>
        { s2 with
          ds_train := s2.ds_train.map (List.filter f)
          ds_test := s2.ds_test.map (List.filter f)
          ds_val := s2.ds_val.map (List.filter f) }
      | none => s2
    Except.ok (s3, log0 ++ r.2)

/-- **C8 counterexample.** A concrete non-tfds configuration with no custom
loader: `load_dataset` returns normally with all partitions unset, but the
printed output is only the "Loading ..." line — the claimed skip warning is
NOT emitted (the warning print sits in `__load_from_tfds`, which
`_load_dataset` never calls when `is_tfds_ds` is false). -/
theorem C8_counterexample_no_warning_emitted :
    load_dataset (fun _ => (none, none, none)) Except.ok
        { dataset_name := "mnist", is_tfds_ds := false } none
      = Except.ok ({ dataset_name := "mnist", is_tfds_ds := false }, ["Loading mnist"])
    ∧ tfds_warning ∉ ["Loading mnist"] := by
  refine ⟨rfl, ?_⟩
  decide

/-- **C8 (amended).** For every configuration with `is_tfds_ds` false, no
custom loader and `builds_ds_info` false (its dataclass default),
`load_dataset` raises no exception and leaves the state — in particular all
partitions — exactly as it was; but contrary to the claim it emits no
warning: the only output is the `"Loading <name>"` line. -/
theorem C8_load_dataset_silent_noop
    (tfds_load : String →
      Option (List (ℤ × ℤ)) × Option (List (ℤ × ℤ)) × Option (List (ℤ × ℤ)))
    (build_ds_info_fn : LoadState → Except String LoadState)
    (self : LoadState) (h1 : self.is_tfds_ds = false)
    (h2 : self.builds_ds_info = false) :
    load_dataset tfds_load build_ds_info_fn self none
      = Except.ok (self, ["Loading " ++ self.dataset_name]) := by
  simp [load_dataset, load_dataset_base, h1, h2]

/-- Witness for the amended C8 at a concrete configuration. -/
theorem C8_load_dataset_silent_noop_witness :
    load_dataset (fun _ => (some [], none, none)) Except.ok
        { dataset_name := "cifar10", is_tfds_ds := false } none
      = Except.ok ({ dataset_name := "cifar10", is_tfds_ds := false },
          ["Loading cifar10"]) :=
  C8_load_dataset_silent_noop (fun _ => (some [], none, none)) Except.ok
    { dataset_name := "cifar10", is_tfds_ds := false } rfl rfl

/-! ## `calculate_data_entropy` -/

/-- `scipy.stats.entropy(counts)` (external collaborator, embedded by its
documented formula): normalize the counts to probabilities and return
`-∑ p·log p` (natural log). -/
noncomputable def scipy_entropy (counts : List ℕ) : ℝ :=
  -(counts.map fun (c : ℕ) =>
      ((c : ℝ) / (counts.sum : ℝ)) * Real.log ((c : ℝ) / (counts.sum : ℝ))).sum

/-- Maximum of a list of reals (Python `max`; the empty case never occurs
where this is used — Python would raise `ValueError` there, and the caller
models that case as `none`). -/
noncomputable def listMax : List ℝ → ℝ
  | [] => 0
  | [x] => x
  | x :: y :: t => max x (listMax (y :: t))

/-- Minimum of a list of reals (Python `min`). -/
noncomputable def listMin : List ℝ → ℝ
  | [] => 0
  | [x] => x
  | x :: y :: t => min x (listMin (y :: t))

/-- `AbstractDataset.calculate_data_entropy` (lines 433-468): for every
sample of the partition, compute the Shannon entropy of the sample's own
value-frequency distribution and its normalization by `log` of the number
of distinct values in that sample; then aggregate avg/min/max of both lists.
`max()`/`min()` on an empty list raise `ValueError` in Python, which happens
exactly when the partition is empty — modelled as `none`. -/
noncomputable def calculate_data_entropy (ds : List (List ℤ)) :
    Option ((ℝ × ℝ × ℝ) × (ℝ × ℝ × ℝ)) :=
  let entropy_val_list := ds.map fun sample =>
    scipy_entropy ((npUnique sample).map fun v => sample.count v)
  let normed_entropy_val_list := ds.map fun sample =>
    scipy_entropy ((npUnique sample).map fun v => sample.count v)
      / Real.log (((npUnique sample).length : ℝ))
  if entropy_val_list.isEmpty then none
  else some
    ((entropy_val_list.sum / (entropy_val_list.length : ℝ),
      listMin entropy_val_list, listMax entropy_val_list),
     (normed_entropy_val_list.sum / (normed_entropy_val_list.length : ℝ),
      listMin normed_entropy_val_list, listMax normed_entropy_val_list))

/-- **C10.** On a non-empty partition in which every sample has at least two
distinct values, `calculate_data_entropy` divides by no zero (every
per-sample divisor `log(#distinct values)` is nonzero), aggregates over
non-empty lists, and returns a defined result. -/
theorem C10_data_entropy_no_division_by_zero (ds : List (List ℤ))
    (hne : ds ≠ [])
    (hdistinct : ∀ sample ∈ ds, 2 ≤ (npUnique sample).length) :
    (∀ sample ∈ ds, Real.log (((npUnique sample).length : ℝ)) ≠ 0)
    ∧ (ds.map fun sample =>
        scipy_entropy ((npUnique sample).map fun v => sample.count v)) ≠ []
    ∧ ∃ r, calculate_data_entropy ds = some r := by
  refine ⟨?_, ?_, ?_⟩
  · intro sample hs
    have h2 := hdistinct sample hs
    have : (1 : ℝ) < ((npUnique sample).length : ℝ) := by exact_mod_cast h2
    exact (Real.log_pos this).ne'
  · simp [hne]
  · rcases ds with _ | ⟨s, t⟩
    · exact absurd rfl hne
    · exact ⟨_, rfl⟩

/-- Witness for C10 at a concrete two-sample partition. -/
theorem C10_data_entropy_no_division_by_zero_witness :
    ∃ r, calculate_data_entropy [[0, 1], [2, 2, 3]] = some r :=
  (C10_data_entropy_no_division_by_zero [[0, 1], [2, 2, 3]] (by decide)
    (by decide)).2.2
